import Mathlib

/-!
Verification development for the e-commerce synthetic data generator
(`scripts/generate_data.py`).

Modelling conventions:
* Python floats holding money are modelled as exact rationals (`ℚ`);
  `round(x, 2)` is modelled by `round2`, a round-half-to-even to two
  decimals, matching Python's `round` on exact values.
* Every call to the ambient seeded random stream is modelled as an
  explicit choice parameter: `random.randint(a, b)` becomes
  `a + seed % (b - a + 1)`, `random.choice(l)` becomes indexing by a
  seed modulo the list length, `random.random() < p` becomes a `Bool`
  choice, and `random.sample(pop, k)` becomes `sampleWR`, an explicit
  without-replacement sampler driven by a seed list.  Theorems quantify
  over all choices, so they cover every possible draw of the stream.
* `datetime` values are modelled by `PyDateTime`; `timedelta` addition
  is modelled field-wise (calendar carrying is irrelevant to the
  properties proved here), and `str(datetime)` by `dtStr`.
* Python `dict` lookups built by loops (`user_addr`, `order_user`) are
  modelled by last-match-wins searches; `dict` accumulation with
  insertion order (`purchase_pairs`) is modelled by an association
  list updated in place (`bump`).
-/

namespace EC

/-- Python `round(x, 2)` rounds half to even.  `roundHalfEven q` is the
integer nearest to `q`, ties going to the even integer. -/
def roundHalfEven (q : ℚ) : ℤ :=
  if q - ⌊q⌋ < 1/2 then ⌊q⌋
  else if 1/2 < q - ⌊q⌋ then ⌊q⌋ + 1
  else if ⌊q⌋ % 2 = 0 then ⌊q⌋ else ⌊q⌋ + 1

/-- Model of Python `round(x, 2)` on exact rational values. -/
def round2 (q : ℚ) : ℚ := (roundHalfEven (q * 100) : ℚ) / 100

/-- A rational is an exact two-decimal (cent) amount. -/
def IsCents (q : ℚ) : Prop := ∃ n : ℤ, q = (n : ℚ) / 100

theorem roundHalfEven_intCast (n : ℤ) : roundHalfEven (n : ℚ) = n := by
  unfold roundHalfEven
  rw [Int.floor_intCast]
  have h : (n : ℚ) - (n : ℚ) = 0 := by ring
  rw [h]
  norm_num

theorem isCents_round2 (q : ℚ) : IsCents (round2 q) :=
  ⟨roundHalfEven (q * 100), rfl⟩

theorem round2_eq_self {q : ℚ} (h : IsCents q) : round2 q = q := by
  obtain ⟨n, rfl⟩ := h
  unfold round2
  have h100 : ((n : ℚ) / 100) * 100 = (n : ℚ) := by
    field_simp
  rw [h100, roundHalfEven_intCast]

theorem IsCents.add {a b : ℚ} (ha : IsCents a) (hb : IsCents b) : IsCents (a + b) := by
  obtain ⟨n, rfl⟩ := ha
  obtain ⟨m, rfl⟩ := hb
  exact ⟨n + m, by push_cast; ring⟩

theorem IsCents.sub {a b : ℚ} (ha : IsCents a) (hb : IsCents b) : IsCents (a - b) := by
  obtain ⟨n, rfl⟩ := ha
  obtain ⟨m, rfl⟩ := hb
  exact ⟨n - m, by push_cast; ring⟩

theorem IsCents.zero : IsCents 0 := ⟨0, by norm_num⟩

/-- A simplified civil timestamp standing in for Python `datetime`. -/
structure PyDateTime where
  year : Nat
  month : Nat
  day : Nat
  hour : Nat
  minute : Nat
  second : Nat
deriving DecidableEq, Repr

/-- `timedelta(minutes=m)` addition (field-wise; carrying is irrelevant here). -/
def addMinutes (d : PyDateTime) (m : Nat) : PyDateTime :=
  { d with minute := d.minute + m }

/-- `timedelta(days=n)` addition (field-wise; carrying is irrelevant here). -/
def addDays (d : PyDateTime) (n : Nat) : PyDateTime :=
  { d with day := d.day + n }

/-- Zero-padded two-digit rendering used inside `dtStr`. -/
def pad2 (n : Nat) : String :=
  if n < 10 then "0" ++ toString n else toString n

/-- Model of Python `str(datetime)`: `"YYYY-MM-DD HH:MM:SS"`. -/
def dtStr (d : PyDateTime) : String :=
  toString d.year ++ "-" ++ pad2 d.month ++ "-" ++ pad2 d.day ++ " " ++
    pad2 d.hour ++ ":" ++ pad2 d.minute ++ ":" ++ pad2 d.second

/-- Model of Python `str(datetime.date())`: `"YYYY-MM-DD"`. -/
def dateStr (d : PyDateTime) : String :=
  toString d.year ++ "-" ++ pad2 d.month ++ "-" ++ pad2 d.day

theorem dtStr_ne_empty (d : PyDateTime) : dtStr d ≠ "" := by
  intro h
  have hl : (dtStr d).length = 0 := by rw [h]; rfl
  unfold dtStr at hl
  simp only [String.length_append] at hl
  have h1 : ("-" : String).length = 1 := rfl
  omega

/-- `random.choice(l)`: select the element indexed by a seed, reduced
modulo the population size. -/
def pick {α : Type} (l : List α) (d : α) (i : Nat) : α :=
  l.getD (i % l.length) d

theorem pick_mem {α : Type} {l : List α} (d : α) (i : Nat) (h : l ≠ []) :
    pick l d i ∈ l := by
  have hlt : i % l.length < l.length :=
    Nat.mod_lt _ (List.length_pos.mpr h)
  unfold pick
  rw [List.getD_eq_getElem?_getD, List.getElem?_eq_getElem hlt]
  exact List.getElem_mem hlt

theorem mem_headD {α : Type} (l : List α) (d : α) (h : 0 < l.length) :
    l.headD d ∈ l := by
  cases l with
  | nil => simp at h
  | cons a t => simp

/-- `random.sample(pop, k)` modelled explicitly: repeatedly pick a
seed-determined position in the remaining population and remove it
(sampling without replacement). -/
def sampleWR {α : Type} : List α → Nat → List Nat → List α
  | _, 0, _ => []
  | [], _ + 1, _ => []
  | x :: xs, k + 1, seeds =>
      let i := seeds.headD 0 % (x :: xs).length
      (x :: xs).getD i x :: sampleWR ((x :: xs).eraseIdx i) k seeds.tail

theorem sampleWR_length {α : Type} :
    ∀ (k : Nat) (pop : List α) (seeds : List Nat),
      (sampleWR pop k seeds).length = min k pop.length := by
  intro k
  induction k with
  | zero => intro pop seeds; simp [sampleWR]
  | succ k ih =>
      intro pop seeds
      cases pop with
      | nil => simp [sampleWR]
      | cons x xs =>
          have hi : seeds.headD 0 % (x :: xs).length < (x :: xs).length :=
            Nat.mod_lt _ (by simp)
          simp only [sampleWR, List.length_cons, ih]
          rw [List.length_eraseIdx_of_lt (by simpa using hi)]
          simp only [List.length_cons]
          omega

theorem sampleWR_subset {α : Type} :
    ∀ (k : Nat) (pop : List α) (seeds : List Nat),
      ∀ y ∈ sampleWR pop k seeds, y ∈ pop := by
  intro k
  induction k with
  | zero => intro pop seeds y hy; simp [sampleWR] at hy
  | succ k ih =>
      intro pop seeds y hy
      cases pop with
      | nil => simp [sampleWR] at hy
      | cons x xs =>
          have hi : seeds.headD 0 % (x :: xs).length < (x :: xs).length :=
            Nat.mod_lt _ (by simp)
          simp only [sampleWR, List.mem_cons] at hy
          rcases hy with h | h
          · rw [h, List.getD_eq_getElem?_getD, List.getElem?_eq_getElem hi]
            exact List.getElem_mem hi
          · exact ((x :: xs).eraseIdx_sublist _).mem (ih _ _ _ h)

theorem perm_getD_cons_eraseIdx {α : Type} :
    ∀ (l : List α) (i : Nat) (d : α), i < l.length →
      l.Perm (l.getD i d :: l.eraseIdx i) := by
  intro l
  induction l with
  | nil => intro i d h; simp at h
  | cons x xs ih =>
      intro i d h
      cases i with
      | zero => simp [List.eraseIdx]
      | succ i =>
          have hi : i < xs.length := by simpa using h
          have h1 : xs.Perm (xs.getD i d :: xs.eraseIdx i) := ih i d hi
          have h2 : (x :: xs).Perm (x :: xs.getD i d :: xs.eraseIdx i) :=
            List.Perm.cons x h1
          have h3 : (x :: xs.getD i d :: xs.eraseIdx i).Perm
              (xs.getD i d :: x :: xs.eraseIdx i) := List.Perm.swap _ _ _
          simpa using h2.trans h3

theorem sampleWR_subperm {α : Type} :
    ∀ (k : Nat) (pop : List α) (seeds : List Nat),
      (sampleWR pop k seeds).Subperm pop := by
  intro k
  induction k with
  | zero => intro pop seeds; simp [sampleWR]
  | succ k ih =>
      intro pop seeds
      cases pop with
      | nil => simp [sampleWR]
      | cons x xs =>
          have hi : seeds.headD 0 % (x :: xs).length < (x :: xs).length :=
            Nat.mod_lt _ (by simp)
          simp only [sampleWR]
          have h1 : (sampleWR ((x :: xs).eraseIdx (seeds.headD 0 % (x :: xs).length))
              k seeds.tail).Subperm ((x :: xs).eraseIdx (seeds.headD 0 % (x :: xs).length)) :=
            ih _ _
          obtain ⟨m, hperm, hsub⟩ := h1
          have h2 : ((x :: xs).getD (seeds.headD 0 % (x :: xs).length) x ::
              sampleWR ((x :: xs).eraseIdx (seeds.headD 0 % (x :: xs).length)) k
                seeds.tail).Subperm
              ((x :: xs).getD (seeds.headD 0 % (x :: xs).length) x ::
                (x :: xs).eraseIdx (seeds.headD 0 % (x :: xs).length)) :=
            ⟨_ :: m, hperm.cons _, hsub.cons₂ _⟩
          exact h2.trans (perm_getD_cons_eraseIdx _ _ _ hi).symm.subperm

/-! ### Data model (from `generate_data.py`) -/

structure User where
  user_id : Nat
  username : String
  email : String
  first_name : String
  last_name : String
deriving Repr

structure Address where
  address_id : Nat
  user_id : Nat
  address_type : String
  street : String
  city : String
  state : String
  zip_code : String
  country : String
  is_default : Bool
deriving Repr

structure Category where
  category_id : Nat
  category_name : String
  description : String
deriving Repr

structure Product where
  product_id : Nat
  category_id : Nat
  product_name : String
  description : String
  base_price : ℚ
  stock_quantity : Nat
deriving Repr

structure Cart where
  cart_id : Nat
  user_id : Nat
  session_id : Nat
  device_type : String
  created_at : String
  updated_at : String
  is_active : Bool
  converted_to_order : Bool
  converted_at : String
deriving Repr

structure CartItem where
  cart_item_id : Nat
  cart_id : Nat
  product_id : Nat
  quantity : Nat
  added_at : String
deriving Repr

structure Order where
  order_id : Nat
  user_id : Nat
  order_date : PyDateTime
  status : String
  total_amount : ℚ
  tax_amount : ℚ
  shipping_fee : ℚ
  shipping_option : String
  shipping_address_id : Nat
  expected_shipping_date : String
  expected_delivery_date : String
deriving Repr

structure OrderItem where
  order_item_id : Nat
  order_id : Nat
  product_id : Nat
  product_name : String
  unit_price : ℚ
  quantity : Nat
  subtotal : ℚ
deriving Repr

structure Payment where
  payment_id : Nat
  order_id : Nat
  payment_method : String
  payment_status : String
  amount : ℚ
  transaction_date : String
  card_last_four : String
  billing_address_id : Nat
deriving Repr

structure Return where
  return_id : Nat
  order_id : Nat
  user_id : Nat
  return_date : PyDateTime
  status : String
  reason : String
deriving Repr

structure ReturnItem where
  return_item_id : Nat
  return_id : Nat
  order_item_id : Nat
  product_id : Nat
  quantity : Nat
  refund_amount : ℚ
  restocking_fee : ℚ
  refund_status : String
deriving Repr

/-! ### Static configuration tables (from the module top level) -/

def CATEGORIES : List Category :=
  [ ⟨1, "electronics", "Electronic gadgets and accessories"⟩,
    ⟨2, "fashion", "Clothing, shoes, and accessories"⟩,
    ⟨3, "home_decor", "Home decoration items"⟩,
    ⟨4, "books", "Books and publications"⟩,
    ⟨5, "sports", "Sporting goods and equipment"⟩,
    ⟨6, "toys", "Toys and games"⟩ ]

def DEVICE_TYPES : List String := ["tablet", "laptop", "mobile", "desktop"]

def SHIPPING_OPTIONS : List String := ["standard", "mid_tier", "expedited", "overnight"]

/-- The fee table `{"standard": 5.99, "mid_tier": 9.99, "expedited": 14.99,
"overnight": 24.99}`, aligned with `SHIPPING_OPTIONS` positionally. -/
def SHIPPING_FEES : List ℚ := [5.99, 9.99, 14.99, 24.99]

def PAYMENT_METHODS : List String := ["credit_card", "debit_card", "bank_account", "paypal"]

def ORDER_STATUSES : List String := ["pending", "confirmed", "shipped", "delivered", "cancelled"]

def RETURN_STATUSES : List String :=
  ["initiated", "label_printed", "shipped_back", "received", "refunded", "exchanged"]

def RETURN_REASONS : List String :=
  ["Wrong size", "Defective item", "Changed mind", "Item not as described", "Better price found"]

def REFUND_STATUSES : List String := ["pending", "processed", "completed"]

def COLORS : List String :=
  ["black", "white", "blue", "red", "aqua-blue", "coral", "green", "grey", "pink", "terracotta"]

def SIZES : List String := ["XS", "S", "M", "L", "XL", "XXL"]

def defaultUser : User := ⟨0, "", "", "", ""⟩

def defaultProduct : Product := ⟨0, 0, "", "", 0, 0⟩

def defaultOrder : Order := ⟨0, 0, ⟨0,0,0,0,0,0⟩, "", 0, 0, 0, "", 0, "", ""⟩

def defaultOrderItem : OrderItem := ⟨0, 0, 0, "", 0, 0, 0⟩

/-! ### `gen_addresses` -/

/-- The faker-provided free-text fields of an address; drawn from the
value stream, indexed by address id. -/
structure FakeAddr where
  street : String
  city : String
  state : String
  zip_code : String

def mkAddress (u : User) (aid : Nat) (t : String) (fa : FakeAddr) : Address :=
  { address_id := aid, user_id := u.user_id, address_type := t,
    street := fa.street, city := fa.city, state := fa.state,
    zip_code := fa.zip_code, country := "US", is_default := t == "shipping" }

def gen_addresses_aux (fk : Nat → FakeAddr) : List User → Nat → List Address
  | [], _ => []
  | u :: us, aid =>
      mkAddress u aid "shipping" (fk aid) ::
      mkAddress u (aid + 1) "billing" (fk (aid + 1)) ::
      gen_addresses_aux fk us (aid + 2)

/-- `gen_addresses(users)`: for each user, one shipping and one billing
address, with sequential ids starting at 1. -/
def gen_addresses (users : List User) (fk : Nat → FakeAddr) : List Address :=
  gen_addresses_aux fk users 1

/-- The `user_addr` dict of `gen_orders`: maps a user id to the address
id of that user's shipping address.  The Python loop overwrites on
duplicate user ids, so the lookup is last-match-wins. -/
def user_addr (addresses : List Address) (uid : Nat) : Option Nat :=
  (addresses.reverse.find? (fun a => a.address_type == "shipping" && a.user_id == uid)).map
    (fun a => a.address_id)

theorem gen_addresses_aux_shipping (fk : Nat → FakeAddr) :
    ∀ (us : List User) (aid : Nat), ∀ u ∈ us,
      ∃ a ∈ gen_addresses_aux fk us aid,
        a.user_id = u.user_id ∧ a.address_type = "shipping" := by
  intro us
  induction us with
  | nil => intro aid u hu; simp at hu
  | cons v vs ih =>
      intro aid u hu
      rcases List.mem_cons.mp hu with h | h
      · subst h
        exact ⟨mkAddress u aid "shipping" (fk aid), by simp [gen_addresses_aux], rfl, rfl⟩
      · obtain ⟨a, ha, hprop⟩ := ih (aid + 2) u h
        exact ⟨a, by simp [gen_addresses_aux, ha], hprop⟩

theorem user_addr_isSome {addresses : List Address} {uid : Nat}
    (h : ∃ a ∈ addresses, a.user_id = uid ∧ a.address_type = "shipping") :
    ∃ n, user_addr addresses uid = some n := by
  obtain ⟨a, ha, h1, h2⟩ := h
  have hmem : a ∈ addresses.reverse := List.mem_reverse.mpr ha
  have hpred : (fun a : Address => a.address_type == "shipping" && a.user_id == uid) a = true := by
    simp [h1, h2]
  have hsome : (addresses.reverse.find?
      (fun a => a.address_type == "shipping" && a.user_id == uid)).isSome := by
    rw [List.find?_isSome]
    exact ⟨a, hmem, hpred⟩
  obtain ⟨b, hb⟩ := Option.isSome_iff_exists.mp hsome
  exact ⟨b.address_id, by simp [user_addr, hb]⟩

theorem user_addr_spec {addresses : List Address} {uid n : Nat}
    (h : user_addr addresses uid = some n) :
    ∃ a ∈ addresses, a.address_id = n ∧ a.user_id = uid ∧ a.address_type = "shipping" := by
  unfold user_addr at h
  obtain ⟨a, hfind, hid⟩ := Option.map_eq_some'.mp h
  have hmem : a ∈ addresses.reverse := List.mem_of_find?_eq_some hfind
  have hpred := List.find?_some hfind
  simp only [Bool.and_eq_true, beq_iff_eq] at hpred
  exact ⟨a, List.mem_reverse.mp hmem, hid, hpred.2, hpred.1⟩

/-! ### `gen_orders` -/

/-- Random draws made for one order item: the product pick and the
quantity (`random.randint(1, 3)`). -/
structure OrderItemChoice where
  prodSeed : Nat
  qtySeed : Nat

/-- Random draws made for one order (user pick, date, weighted status
pick, shipping option, items, payment method, card digits, expected
shipping/delivery offsets). -/
structure OrderChoice where
  userSeed : Nat
  orderDate : PyDateTime
  statusSeed : Nat
  shipSeed : Nat
  itemChoices : List OrderItemChoice
  pmSeed : Nat
  cardSeed : Nat
  shipDaysSeed : Nat
  delivDaysSeed : Nat

/-- The inner item loop of `gen_orders`: each item picks a product,
a quantity in 1–3, takes `unit_price` from the product's `base_price`
and sets `subtotal = round(unit_price * qty, 2)`. -/
def genOrderItems (products : List Product) (orderId : Nat) :
    Nat → List OrderItemChoice → List OrderItem
  | _, [] => []
  | oiId, ic :: rest =>
      let prod := pick products defaultProduct ic.prodSeed
      let qty := 1 + ic.qtySeed % 3
      { order_item_id := oiId, order_id := orderId, product_id := prod.product_id,
        product_name := prod.product_name, unit_price := prod.base_price,
        quantity := qty, subtotal := round2 (prod.base_price * (qty : ℚ)) } ::
      genOrderItems products orderId (oiId + 1) rest

/-- `subtotal = sum(i["subtotal"] for i in items_in_order)`. -/
def subtotalSum (items : List OrderItem) : ℚ :=
  (items.map (fun oi => oi.subtotal)).sum

/-- `tax = round(subtotal * 0.08, 2)`. -/
def orderTax (items : List OrderItem) : ℚ :=
  round2 (subtotalSum items * 0.08)

/-- `total = round(subtotal + tax + ship_fee, 2)`. -/
def orderTotal (items : List OrderItem) (fee : ℚ) : ℚ :=
  round2 (subtotalSum items + orderTax items + fee)

def mkOrder (users : List User) (uam : Nat → Option Nat) (orderId : Nat)
    (oc : OrderChoice) (items : List OrderItem) : Order :=
  let user := pick users defaultUser oc.userSeed
  let si := oc.shipSeed % SHIPPING_OPTIONS.length
  { order_id := orderId, user_id := user.user_id, order_date := oc.orderDate,
    status := pick ORDER_STATUSES "pending" oc.statusSeed,
    total_amount := orderTotal items (SHIPPING_FEES.getD si 5.99),
    tax_amount := orderTax items,
    shipping_fee := SHIPPING_FEES.getD si 5.99,
    shipping_option := SHIPPING_OPTIONS.getD si "standard",
    shipping_address_id := (uam user.user_id).getD 1,
    expected_shipping_date := dateStr (addDays oc.orderDate (1 + oc.shipDaysSeed % 3)),
    expected_delivery_date := dateStr (addDays oc.orderDate (3 + oc.delivDaysSeed % 8)) }

def mkPayment (users : List User) (uam : Nat → Option Nat) (payId orderId : Nat)
    (oc : OrderChoice) (items : List OrderItem) : Payment :=
  let user := pick users defaultUser oc.userSeed
  let status := pick ORDER_STATUSES "pending" oc.statusSeed
  let pm := pick PAYMENT_METHODS "credit_card" oc.pmSeed
  let si := oc.shipSeed % SHIPPING_OPTIONS.length
  { payment_id := payId, order_id := orderId, payment_method := pm,
    payment_status := if status ≠ "cancelled" then "approved" else "declined",
    amount := orderTotal items (SHIPPING_FEES.getD si 5.99),
    transaction_date := dtStr oc.orderDate,
    card_last_four := if pm.containsSubstr "card" then toString (1000 + oc.cardSeed % 9000) else "",
    billing_address_id := (uam user.user_id).getD 1 }

def gen_orders_aux (users : List User) (products : List Product) (uam : Nat → Option Nat) :
    Nat → Nat → Nat → List OrderChoice → List Order × List OrderItem × List Payment
  | _, _, _, [] => ([], [], [])
  | orderId, oiId, payId, oc :: rest =>
      let items := genOrderItems products orderId oiId oc.itemChoices
      let r := gen_orders_aux users products uam (orderId + 1) (oiId + items.length)
        (payId + 1) rest
      (mkOrder users uam orderId oc items :: r.1,
       items ++ r.2.1,
       mkPayment users uam payId orderId oc items :: r.2.2)

/-- `gen_orders(users, products, addresses)`: ids start at 1; one
payment per order. -/
def gen_orders (users : List User) (products : List Product) (addresses : List Address)
    (choices : List OrderChoice) : List Order × List OrderItem × List Payment :=
  gen_orders_aux users products (user_addr addresses) 1 1 1 choices

/-- The order items belonging to one order id. -/
def orderItemsOf (items : List OrderItem) (oid : Nat) : List OrderItem :=
  items.filter (fun oi => oi.order_id == oid)

theorem genOrderItems_order_id (products : List Product) (orderId : Nat) :
    ∀ (ics : List OrderItemChoice) (oiId : Nat),
      ∀ oi ∈ genOrderItems products orderId oiId ics, oi.order_id = orderId := by
  intro ics
  induction ics with
  | nil => intro oiId oi h; simp [genOrderItems] at h
  | cons ic rest ih =>
      intro oiId oi h
      simp only [genOrderItems, List.mem_cons] at h
      rcases h with h | h
      · subst h; rfl
      · exact ih (oiId + 1) oi h

theorem genOrderItems_spec (products : List Product) (orderId : Nat) :
    ∀ (ics : List OrderItemChoice) (oiId : Nat),
      ∀ oi ∈ genOrderItems products orderId oiId ics,
        oi.subtotal = round2 (oi.unit_price * (oi.quantity : ℚ)) ∧
        IsCents oi.subtotal ∧
        (products ≠ [] → ∃ p ∈ products,
          oi.product_id = p.product_id ∧ oi.unit_price = p.base_price) := by
  intro ics
  induction ics with
  | nil => intro oiId oi h; simp [genOrderItems] at h
  | cons ic rest ih =>
      intro oiId oi h
      simp only [genOrderItems, List.mem_cons] at h
      rcases h with h | h
      · subst h
        refine ⟨rfl, isCents_round2 _, fun hp => ⟨pick products defaultProduct ic.prodSeed,
          pick_mem _ _ hp, rfl, rfl⟩⟩
      · exact ih (oiId + 1) oi h

theorem gen_orders_aux_ids (users : List User) (products : List Product)
    (uam : Nat → Option Nat) :
    ∀ (choices : List OrderChoice) (orderId oiId payId : Nat),
      (∀ o ∈ (gen_orders_aux users products uam orderId oiId payId choices).1,
        orderId ≤ o.order_id) ∧
      (∀ oi ∈ (gen_orders_aux users products uam orderId oiId payId choices).2.1,
        orderId ≤ oi.order_id) := by
  intro choices
  induction choices with
  | nil => intro orderId oiId payId; constructor <;> (intro x h; simp [gen_orders_aux] at h)
  | cons oc rest ih =>
      intro orderId oiId payId
      have ihr := ih (orderId + 1)
        (oiId + (genOrderItems products orderId oiId oc.itemChoices).length) (payId + 1)
      constructor
      · intro o ho
        simp only [gen_orders_aux, List.mem_cons] at ho
        rcases ho with h | h
        · subst h; exact le_refl _
        · exact Nat.le_of_succ_le (ihr.1 o h)
      · intro oi hoi
        simp only [gen_orders_aux, List.mem_append] at hoi
        rcases hoi with h | h
        · rw [genOrderItems_order_id products orderId oc.itemChoices oiId oi h]
        · exact Nat.le_of_succ_le (ihr.2 oi h)

theorem gen_orders_aux_money (users : List User) (products : List Product)
    (uam : Nat → Option Nat) (hp : products ≠ []) :
    ∀ (choices : List OrderChoice) (orderId oiId payId : Nat),
      ∀ o ∈ (gen_orders_aux users products uam orderId oiId payId choices).1,
        o.tax_amount = round2 (subtotalSum
          (orderItemsOf (gen_orders_aux users products uam orderId oiId payId choices).2.1
            o.order_id) * 0.08) ∧
        o.total_amount = round2 (subtotalSum
          (orderItemsOf (gen_orders_aux users products uam orderId oiId payId choices).2.1
            o.order_id) + o.tax_amount + o.shipping_fee) ∧
        ∀ oi ∈ orderItemsOf
            (gen_orders_aux users products uam orderId oiId payId choices).2.1 o.order_id,
          oi.subtotal = round2 (oi.unit_price * (oi.quantity : ℚ)) ∧
          ∃ p ∈ products, oi.product_id = p.product_id ∧ oi.unit_price = p.base_price := by
  intro choices
  induction choices with
  | nil => intro orderId oiId payId o ho; simp [gen_orders_aux] at ho
  | cons oc rest ih =>
      intro orderId oiId payId o ho
      have hItemsHead : ∀ oi ∈ genOrderItems products orderId oiId oc.itemChoices,
          oi.order_id = orderId := genOrderItems_order_id products orderId oc.itemChoices oiId
      have hItemsRest : ∀ oi ∈ (gen_orders_aux users products uam (orderId + 1)
          (oiId + (genOrderItems products orderId oiId oc.itemChoices).length)
          (payId + 1) rest).2.1, orderId + 1 ≤ oi.order_id :=
        (gen_orders_aux_ids users products uam rest (orderId + 1)
          (oiId + (genOrderItems products orderId oiId oc.itemChoices).length) (payId + 1)).2
      simp only [gen_orders_aux, List.mem_cons] at ho
      rcases ho with h | h
      · -- the head order: its items are exactly the head block
        have hblock : orderItemsOf
            (gen_orders_aux users products uam orderId oiId payId (oc :: rest)).2.1
              o.order_id = genOrderItems products orderId oiId oc.itemChoices := by
          subst h
          show orderItemsOf (genOrderItems products orderId oiId oc.itemChoices ++ _) _ = _
          unfold orderItemsOf
          rw [List.filter_append]
          have h1 : (genOrderItems products orderId oiId oc.itemChoices).filter
              (fun oi => oi.order_id == (mkOrder users uam orderId oc
                (genOrderItems products orderId oiId oc.itemChoices)).order_id) =
              genOrderItems products orderId oiId oc.itemChoices := by
            rw [List.filter_eq_self]
            intro oi hoi
            have := hItemsHead oi hoi
            simp [this, mkOrder]
          have h2 : ((gen_orders_aux users products uam (orderId + 1)
              (oiId + (genOrderItems products orderId oiId oc.itemChoices).length)
              (payId + 1) rest).2.1).filter
              (fun oi => oi.order_id == (mkOrder users uam orderId oc
                (genOrderItems products orderId oiId oc.itemChoices)).order_id) = [] := by
            rw [List.filter_eq_nil_iff]
            intro oi hoi
            have := hItemsRest oi hoi
            simp only [mkOrder, beq_iff_eq]
            omega
          rw [h1, h2, List.append_nil]
        rw [hblock]
        subst h
        refine ⟨rfl, rfl, ?_⟩
        intro oi hoi
        obtain ⟨hsub, _, hprod⟩ := genOrderItems_spec products orderId oc.itemChoices oiId oi hoi
        exact ⟨hsub, hprod hp⟩
      · -- an order from the tail: the head block filters away
        have hgt : orderId + 1 ≤ o.order_id :=
          (gen_orders_aux_ids users products uam rest (orderId + 1)
            (oiId + (genOrderItems products orderId oiId oc.itemChoices).length)
            (payId + 1)).1 o h
        have hblock : orderItemsOf
            (gen_orders_aux users products uam orderId oiId payId (oc :: rest)).2.1
              o.order_id = orderItemsOf
            (gen_orders_aux users products uam (orderId + 1)
              (oiId + (genOrderItems products orderId oiId oc.itemChoices).length)
              (payId + 1) rest).2.1 o.order_id := by
          show orderItemsOf (genOrderItems products orderId oiId oc.itemChoices ++ _) _ = _
          unfold orderItemsOf
          rw [List.filter_append]
          have h1 : (genOrderItems products orderId oiId oc.itemChoices).filter
              (fun oi => oi.order_id == o.order_id) = [] := by
            rw [List.filter_eq_nil_iff]
            intro oi hoi
            have := hItemsHead oi hoi
            simp only [beq_iff_eq]
            omega
          rw [h1, List.nil_append]
        rw [hblock]
        exact ih (orderId + 1)
          (oiId + (genOrderItems products orderId oiId oc.itemChoices).length) (payId + 1) o h

theorem gen_orders_aux_payments (users : List User) (products : List Product)
    (uam : Nat → Option Nat) :
    ∀ (choices : List OrderChoice) (orderId oiId payId : Nat),
      ∀ pay ∈ (gen_orders_aux users products uam orderId oiId payId choices).2.2,
        ∃ o ∈ (gen_orders_aux users products uam orderId oiId payId choices).1,
          o.order_id = pay.order_id ∧ pay.amount = o.total_amount ∧
          (pay.payment_status = "declined" ↔ o.status = "cancelled") ∧
          (o.status ≠ "cancelled" → pay.payment_status = "approved") := by
  intro choices
  induction choices with
  | nil => intro orderId oiId payId pay h; simp [gen_orders_aux] at h
  | cons oc rest ih =>
      intro orderId oiId payId pay h
      simp only [gen_orders_aux, List.mem_cons] at h ⊢
      rcases h with h | h
      · refine ⟨mkOrder users uam orderId oc
          (genOrderItems products orderId oiId oc.itemChoices), Or.inl rfl, ?_⟩
        subst h
        refine ⟨rfl, rfl, ?_, ?_⟩
        · by_cases hs : pick ORDER_STATUSES "pending" oc.statusSeed = "cancelled"
          · simp [mkPayment, mkOrder, hs]
          · simp only [mkPayment, mkOrder, if_pos hs]
            constructor
            · intro habs; exact absurd habs (by decide)
            · intro habs; exact absurd habs hs
        · intro hs
          simp only [mkPayment, mkOrder] at hs ⊢
          rw [if_pos hs]
      · obtain ⟨o, ho, hprop⟩ := ih (orderId + 1)
          (oiId + (genOrderItems products orderId oiId oc.itemChoices).length)
          (payId + 1) pay h
        exact ⟨o, Or.inr ho, hprop⟩

theorem gen_orders_aux_user_addr (users : List User) (products : List Product)
    (uam : Nat → Option Nat) (hu : users ≠ []) :
    ∀ (choices : List OrderChoice) (orderId oiId payId : Nat),
      ∀ o ∈ (gen_orders_aux users products uam orderId oiId payId choices).1,
        ∃ u ∈ users, o.user_id = u.user_id ∧
          o.shipping_address_id = (uam u.user_id).getD 1 := by
  intro choices
  induction choices with
  | nil => intro orderId oiId payId o h; simp [gen_orders_aux] at h
  | cons oc rest ih =>
      intro orderId oiId payId o h
      simp only [gen_orders_aux, List.mem_cons] at h
      rcases h with h | h
      · subst h
        exact ⟨pick users defaultUser oc.userSeed, pick_mem _ _ hu, rfl, rfl⟩
      · exact ih (orderId + 1)
          (oiId + (genOrderItems products orderId oiId oc.itemChoices).length) (payId + 1) o h

/-- Shared concrete fixtures for witness instantiations. -/
def uA : User := ⟨1, "sarah", "sarah@example.com", "Sarah", "Johnson"⟩

def pA : Product := ⟨1, 1, "Widget Gadget Thing", "A widget.", 5.99, 10⟩

def ocA : OrderChoice :=
  { userSeed := 0, orderDate := ⟨2025, 6, 15, 10, 0, 0⟩, statusSeed := 3, shipSeed := 0,
    itemChoices := [⟨0, 1⟩], pmSeed := 0, cardSeed := 0, shipDaysSeed := 0, delivDaysSeed := 0 }

/-- The first order of the fixture run. -/
def wOutA : List Order × List OrderItem × List Payment := gen_orders [uA] [pA] [] [ocA]

def wOrdA : Order := wOutA.1.headD defaultOrder

/-- C1: for every generated Order, `tax_amount = round(subtotal * 0.08, 2)`
where `subtotal` is the sum of its OrderItems' subtotals,
`total_amount = round(subtotal + tax_amount + shipping_fee, 2)`, and each
of its OrderItems has `subtotal = round(unit_price * quantity, 2)` with
`unit_price` taken from the product's `base_price`. -/
theorem c1_order_financials (users : List User) (products : List Product)
    (addresses : List Address) (choices : List OrderChoice) (hp : products ≠ []) :
    ∀ o ∈ (gen_orders users products addresses choices).1,
      o.tax_amount = round2 (subtotalSum (orderItemsOf
        (gen_orders users products addresses choices).2.1 o.order_id) * 0.08) ∧
      o.total_amount = round2 (subtotalSum (orderItemsOf
        (gen_orders users products addresses choices).2.1 o.order_id) +
        o.tax_amount + o.shipping_fee) ∧
      ∀ oi ∈ orderItemsOf (gen_orders users products addresses choices).2.1 o.order_id,
        oi.subtotal = round2 (oi.unit_price * (oi.quantity : ℚ)) ∧
        ∃ p ∈ products, oi.product_id = p.product_id ∧ oi.unit_price = p.base_price :=
  gen_orders_aux_money users products (user_addr addresses) hp choices 1 1 1

/-- Witness for C1 at a concrete one-order run. -/
theorem c1_order_financials_witness :
    ([pA] ≠ ([] : List Product)) ∧
    (wOrdA.tax_amount = round2 (subtotalSum (orderItemsOf wOutA.2.1 wOrdA.order_id) * 0.08) ∧
     wOrdA.total_amount = round2 (subtotalSum (orderItemsOf wOutA.2.1 wOrdA.order_id) +
       wOrdA.tax_amount + wOrdA.shipping_fee) ∧
     ∀ oi ∈ orderItemsOf wOutA.2.1 wOrdA.order_id,
       oi.subtotal = round2 (oi.unit_price * (oi.quantity : ℚ)) ∧
       ∃ p ∈ [pA], oi.product_id = p.product_id ∧ oi.unit_price = p.base_price) :=
  ⟨by simp,
   c1_order_financials [uA] [pA] [] [ocA] (by simp) wOrdA (mem_headD _ _ (by decide))⟩

def defaultPayment : Payment := ⟨0, 0, "", "", 0, "", "", 0⟩

def wPayA : Payment := wOutA.2.2.headD defaultPayment

/-- C2: every generated Payment has `amount` equal to its parent
Order's `total_amount`, and `payment_status = "declined"` iff the
parent Order's `status = "cancelled"` (otherwise it is `"approved"`). -/
theorem c2_payment_mirrors_order (users : List User) (products : List Product)
    (addresses : List Address) (choices : List OrderChoice) :
    ∀ pay ∈ (gen_orders users products addresses choices).2.2,
      ∃ o ∈ (gen_orders users products addresses choices).1,
        o.order_id = pay.order_id ∧ pay.amount = o.total_amount ∧
        (pay.payment_status = "declined" ↔ o.status = "cancelled") ∧
        (o.status ≠ "cancelled" → pay.payment_status = "approved") :=
  gen_orders_aux_payments users products (user_addr addresses) choices 1 1 1

/-- Witness for C2 at a concrete one-order run. -/
theorem c2_payment_mirrors_order_witness :
    ∃ o ∈ wOutA.1, o.order_id = wPayA.order_id ∧ wPayA.amount = o.total_amount ∧
      (wPayA.payment_status = "declined" ↔ o.status = "cancelled") ∧
      (o.status ≠ "cancelled" → wPayA.payment_status = "approved") :=
  c2_payment_mirrors_order [uA] [pA] [] [ocA] wPayA (mem_headD _ _ (by decide))

/-- C10: when the address list fed to `gen_orders` is the one
`gen_addresses` produced for the same user list, every order's
`shipping_address_id` resolves through the `user_addr` dict (the
hardcoded fallback id 1 is never the `.get` default) to a
shipping-type address owned by that order's user. -/
theorem c10_shipping_address_owned (users : List User) (products : List Product)
    (fk : Nat → FakeAddr) (choices : List OrderChoice) (hu : users ≠ []) :
    ∀ o ∈ (gen_orders users products (gen_addresses users fk) choices).1,
      ∃ n, user_addr (gen_addresses users fk) o.user_id = some n ∧
        o.shipping_address_id = n ∧
        ∃ a ∈ gen_addresses users fk, a.address_id = n ∧ a.user_id = o.user_id ∧
          a.address_type = "shipping" := by
  intro o ho
  obtain ⟨u, hu_mem, huid, haddr⟩ := gen_orders_aux_user_addr users products
    (user_addr (gen_addresses users fk)) hu choices 1 1 1 o ho
  obtain ⟨a0, ha0_mem, ha0u, ha0t⟩ :=
    gen_addresses_aux_shipping fk users 1 u hu_mem
  obtain ⟨n, hn⟩ := user_addr_isSome ⟨a0, ha0_mem, ha0u, ha0t⟩
  obtain ⟨a, ha_mem, ha_id, ha_uid, ha_t⟩ := user_addr_spec hn
  have hn' : user_addr (gen_addresses users fk) u.user_id = some n := hn
  refine ⟨n, ?_, ?_, a, ha_mem, ha_id, ?_, ha_t⟩
  · rw [huid]; exact hn'
  · rw [haddr, hn']; rfl
  · rw [ha_uid, huid]

def fkA : Nat → FakeAddr := fun _ => ⟨"1 Main St", "Springfield", "IL", "62704"⟩

def wOrdA10 : Order := (gen_orders [uA] [pA] (gen_addresses [uA] fkA) [ocA]).1.headD defaultOrder

/-- Witness for C10 at a concrete one-user, one-order run. -/
theorem c10_shipping_address_owned_witness :
    ([uA] ≠ ([] : List User)) ∧
    ∃ n, user_addr (gen_addresses [uA] fkA) wOrdA10.user_id = some n ∧
      wOrdA10.shipping_address_id = n ∧
      ∃ a ∈ gen_addresses [uA] fkA, a.address_id = n ∧ a.user_id = wOrdA10.user_id ∧
        a.address_type = "shipping" :=
  ⟨by simp,
   c10_shipping_address_owned [uA] [pA] fkA [ocA] (by simp) wOrdA10
     (mem_headD _ _ (by decide))⟩

/-! ### `gen_carts` -/

structure CartItemChoice where
  prodSeed : Nat
  qtySeed : Nat
  addDelta : Nat

/-- Random draws made for one cart; `converted` is the outcome of the
`random.random() < 0.55` coin flip. -/
structure CartChoice where
  userSeed : Nat
  created : PyDateTime
  sessionId : Nat
  deviceSeed : Nat
  updDelta : Nat
  converted : Bool
  convDelta : Nat
  itemChoices : List CartItemChoice

def mkCart (users : List User) (cartId : Nat) (cc : CartChoice) : Cart :=
  { cart_id := cartId, user_id := (pick users defaultUser cc.userSeed).user_id,
    session_id := cc.sessionId,
    device_type := pick DEVICE_TYPES "tablet" cc.deviceSeed,
    created_at := dtStr cc.created,
    updated_at := dtStr (addMinutes cc.created (1 + cc.updDelta % 120)),
    is_active := !cc.converted,
    converted_to_order := cc.converted,
    converted_at :=
      if cc.converted then dtStr (addMinutes cc.created (5 + cc.convDelta % 176)) else "" }

def genCartItems (products : List Product) (cartId : Nat) (created : PyDateTime) :
    Nat → List CartItemChoice → List CartItem
  | _, [] => []
  | ciId, ic :: rest =>
      { cart_item_id := ciId, cart_id := cartId,
        product_id := (pick products defaultProduct ic.prodSeed).product_id,
        quantity := 1 + ic.qtySeed % 3,
        added_at := dtStr (addMinutes created (ic.addDelta % 31)) } ::
      genCartItems products cartId created (ciId + 1) rest

def gen_carts_aux (users : List User) (products : List Product) :
    Nat → Nat → List CartChoice → List Cart × List CartItem
  | _, _, [] => ([], [])
  | cartId, ciId, cc :: rest =>
      let its := genCartItems products cartId cc.created ciId cc.itemChoices
      let r := gen_carts_aux users products (cartId + 1) (ciId + its.length) rest
      (mkCart users cartId cc :: r.1, its ++ r.2)

/-- `gen_carts(users, products)`: cart and cart-item ids start at 1. -/
def gen_carts (users : List User) (products : List Product) (choices : List CartChoice) :
    List Cart × List CartItem :=
  gen_carts_aux users products 1 1 choices

/-- C4: every generated Cart has `is_active = not converted_to_order`,
and `converted_at` is non-empty iff `converted_to_order` is true. -/
theorem c4_cart_conversion_flags (users : List User) (products : List Product)
    (choices : List CartChoice) :
    ∀ c ∈ (gen_carts users products choices).1,
      c.is_active = !c.converted_to_order ∧
      (c.converted_at ≠ "" ↔ c.converted_to_order = true) := by
  suffices h : ∀ (cs : List CartChoice) (cartId ciId : Nat),
      ∀ c ∈ (gen_carts_aux users products cartId ciId cs).1,
        c.is_active = !c.converted_to_order ∧
        (c.converted_at ≠ "" ↔ c.converted_to_order = true) from h choices 1 1
  intro cs
  induction cs with
  | nil => intro cartId ciId c h; simp [gen_carts_aux] at h
  | cons cc rest ih =>
      intro cartId ciId c h
      simp only [gen_carts_aux, List.mem_cons] at h
      rcases h with h | h
      · subst h
        refine ⟨rfl, ?_⟩
        show (if cc.converted then dtStr (addMinutes cc.created (5 + cc.convDelta % 176))
          else "") ≠ "" ↔ cc.converted = true
        cases hcv : cc.converted with
        | true => simpa using dtStr_ne_empty (addMinutes cc.created (5 + cc.convDelta % 176))
        | false => simp
      · exact ih (cartId + 1)
          (ciId + (genCartItems products cartId cc.created ciId cc.itemChoices).length) c h

def defaultCart : Cart := ⟨0, 0, 0, "", "", "", false, false, ""⟩

def ccA : CartChoice :=
  { userSeed := 0, created := ⟨2025, 7, 1, 9, 30, 0⟩, sessionId := 42, deviceSeed := 2,
    updDelta := 0, converted := true, convDelta := 0, itemChoices := [⟨0, 0, 0⟩] }

def wCartA : Cart := (gen_carts [uA] [pA] [ccA]).1.headD defaultCart

/-- Witness for C4 at a concrete one-cart run. -/
theorem c4_cart_conversion_flags_witness :
    wCartA.is_active = !wCartA.converted_to_order ∧
    (wCartA.converted_at ≠ "" ↔ wCartA.converted_to_order = true) :=
  c4_cart_conversion_flags [uA] [pA] [ccA] wCartA (mem_headD _ _ (by decide))

/-! ### C8: missing shipping address -/

def uB : User := ⟨7, "nova_7", "user7@example.com", "Nova", "Lee"⟩

/-- C8 failing input: user 7 owns no address at all, yet `gen_orders`
raises no error; `user_addr.get(user["user_id"], 1)` silently falls back
to the hardcoded address id 1, which need not belong to user 7.  This
theorem evaluates the code at that input. -/
theorem c8_silent_fallback_address :
    ((gen_orders [uB] [pA] [] [ocA]).1.map (fun o => o.shipping_address_id)) = [1] ∧
    user_addr [] uB.user_id = none := by
  constructor <;> rfl

/-! ### `gen_returns` -/

/-- `random.choice([0, 0, 0.1, 0.15])` population for the restocking fee. -/
def RESTOCK_FS : List ℚ := [0, 0, 0.1, 0.15]

/-- Per-return-item draws: the restocking fraction pick and the refund
status pick. -/
structure RetItemChoice where
  fSeed : Nat
  rsSeed : Nat

/-- Per-sampled-order draws of `gen_returns`. -/
structure RetChoice where
  daysSeed : Nat
  statusSeed : Nat
  reasonSeed : Nat
  nSeed : Nat
  sampleSeeds : List Nat
  itemSeeds : Nat → RetItemChoice

/-- The inner item loop of `gen_returns`:
`restocking = round(subtotal * choice([0, 0, 0.1, 0.15]), 2)`,
`refund_amount = round(subtotal - restocking, 2)`. -/
def mkReturnItems (rcsi : Nat → RetItemChoice) (retId : Nat) :
    Nat → Nat → List OrderItem → List ReturnItem
  | _, _, [] => []
  | riId, j, oi :: rest =>
      { return_item_id := riId, return_id := retId, order_item_id := oi.order_item_id,
        product_id := oi.product_id, quantity := oi.quantity,
        refund_amount :=
          round2 (oi.subtotal - round2 (oi.subtotal * pick RESTOCK_FS 0 (rcsi j).fSeed)),
        restocking_fee := round2 (oi.subtotal * pick RESTOCK_FS 0 (rcsi j).fSeed),
        refund_status := pick REFUND_STATUSES "pending" (rcsi j).rsSeed } ::
      mkReturnItems rcsi retId (riId + 1) (j + 1) rest

/-- The per-sampled-order loop of `gen_returns`.  `ret_id` advances with
the enumeration even when an order without items is skipped; `ri_id`
advances only per emitted return item. -/
def gen_returns_aux (itemsAll : List OrderItem) (rcs : Nat → RetChoice) :
    List Order → Nat → Nat → List Return × List ReturnItem
  | [], _, _ => ([], [])
  | o :: rest, retId, riId =>
      if (orderItemsOf itemsAll o.order_id).isEmpty then
        gen_returns_aux itemsAll rcs rest (retId + 1) riId
      else
        let rc := rcs retId
        let oiFor := orderItemsOf itemsAll o.order_id
        let toRet := sampleWR oiFor (1 + rc.nSeed % min 2 oiFor.length) rc.sampleSeeds
        let ris := mkReturnItems rc.itemSeeds retId riId 0 toRet
        let r := gen_returns_aux itemsAll rcs rest (retId + 1) (riId + ris.length)
        ({ return_id := retId, order_id := o.order_id, user_id := o.user_id,
           return_date := addDays o.order_date (1 + rc.daysSeed % 14),
           status := pick RETURN_STATUSES "initiated" rc.statusSeed,
           reason := pick RETURN_REASONS "Wrong size" rc.reasonSeed } :: r.1,
         ris ++ r.2)

/-- The delivered-order population of `gen_returns`. -/
def deliveredOf (orders : List Order) : List Order :=
  orders.filter (fun o => o.status == "delivered")

/-- `sample_size = min(int(len(delivered) * 0.08), len(delivered))`;
`int(x)` truncation on the exact value is floor division by 100 of
`8 * len(delivered)`. -/
def returnSampleSize (orders : List Order) : Nat :=
  min ((deliveredOf orders).length * 8 / 100) (deliveredOf orders).length

/-- `gen_returns(orders, order_items_all)`. -/
def gen_returns (orders : List Order) (order_items_all : List OrderItem)
    (sampleSeeds : List Nat) (rcs : Nat → RetChoice) : List Return × List ReturnItem :=
  gen_returns_aux order_items_all rcs
    (sampleWR (deliveredOf orders) (returnSampleSize orders) sampleSeeds) 1 1

theorem gen_returns_aux_orders (itemsAll : List OrderItem) (rcs : Nat → RetChoice) :
    ∀ (pop : List Order) (retId riId : Nat),
      ∀ r ∈ (gen_returns_aux itemsAll rcs pop retId riId).1,
        ∃ o ∈ pop, r.order_id = o.order_id ∧ r.user_id = o.user_id := by
  intro pop
  induction pop with
  | nil => intro retId riId r h; simp [gen_returns_aux] at h
  | cons o rest ih =>
      intro retId riId r h
      by_cases hE : (orderItemsOf itemsAll o.order_id).isEmpty
      · rw [gen_returns_aux, if_pos hE] at h
        obtain ⟨o', ho', hprop⟩ := ih (retId + 1) riId r h
        exact ⟨o', List.mem_cons_of_mem _ ho', hprop⟩
      · rw [gen_returns_aux, if_neg hE] at h
        simp only [List.mem_cons] at h
        rcases h with h | h
        · subst h; exact ⟨o, List.mem_cons_self _ _, rfl, rfl⟩
        · obtain ⟨o', ho', hprop⟩ := ih (retId + 1) _ r h
          exact ⟨o', List.mem_cons_of_mem _ ho', hprop⟩

theorem mkReturnItems_spec (rcsi : Nat → RetItemChoice) (retId : Nat) :
    ∀ (ois : List OrderItem) (riId j : Nat),
      ∀ ri ∈ mkReturnItems rcsi retId riId j ois,
        ∃ oi ∈ ois, oi.order_item_id = ri.order_item_id ∧
          (∃ f ∈ RESTOCK_FS, ri.restocking_fee = round2 (oi.subtotal * f)) ∧
          ri.refund_amount = round2 (oi.subtotal - ri.restocking_fee) := by
  intro ois
  induction ois with
  | nil => intro riId j ri h; simp [mkReturnItems] at h
  | cons oi rest ih =>
      intro riId j ri h
      simp only [mkReturnItems, List.mem_cons] at h
      rcases h with h | h
      · subst h
        refine ⟨oi, List.mem_cons_self _ _, rfl, ?_, rfl⟩
        exact ⟨pick RESTOCK_FS 0 (rcsi j).fSeed,
          pick_mem _ _ (List.cons_ne_nil _ _), rfl⟩
      · obtain ⟨oi', hmem, hprop⟩ := ih (riId + 1) (j + 1) ri h
        exact ⟨oi', List.mem_cons_of_mem _ hmem, hprop⟩

theorem gen_returns_aux_items (itemsAll : List OrderItem) (rcs : Nat → RetChoice) :
    ∀ (pop : List Order) (retId riId : Nat),
      ∀ ri ∈ (gen_returns_aux itemsAll rcs pop retId riId).2,
        ∃ oi ∈ itemsAll, oi.order_item_id = ri.order_item_id ∧
          (∃ f ∈ RESTOCK_FS, ri.restocking_fee = round2 (oi.subtotal * f)) ∧
          ri.refund_amount = round2 (oi.subtotal - ri.restocking_fee) := by
  intro pop
  induction pop with
  | nil => intro retId riId ri h; simp [gen_returns_aux] at h
  | cons o rest ih =>
      intro retId riId ri h
      by_cases hE : (orderItemsOf itemsAll o.order_id).isEmpty
      · rw [gen_returns_aux, if_pos hE] at h
        exact ih (retId + 1) riId ri h
      · rw [gen_returns_aux, if_neg hE] at h
        simp only [List.mem_append] at h
        rcases h with h | h
        · obtain ⟨oi, hmem, hprop⟩ := mkReturnItems_spec (rcs retId).itemSeeds retId _ _ _ ri h
          have h1 : oi ∈ orderItemsOf itemsAll o.order_id :=
            sampleWR_subset _ _ _ oi hmem
          exact ⟨oi, List.mem_of_mem_filter h1, hprop⟩
        · exact ih (retId + 1) _ ri h

theorem gen_orders_aux_isCents (users : List User) (products : List Product)
    (uam : Nat → Option Nat) :
    ∀ (choices : List OrderChoice) (orderId oiId payId : Nat),
      ∀ oi ∈ (gen_orders_aux users products uam orderId oiId payId choices).2.1,
        IsCents oi.subtotal := by
  intro choices
  induction choices with
  | nil => intro orderId oiId payId oi h; simp [gen_orders_aux] at h
  | cons oc rest ih =>
      intro orderId oiId payId oi h
      simp only [gen_orders_aux, List.mem_append] at h
      rcases h with h | h
      · exact (genOrderItems_spec products orderId oc.itemChoices oiId oi h).2.1
      · exact ih (orderId + 1)
          (oiId + (genOrderItems products orderId oiId oc.itemChoices).length) (payId + 1) oi h

/-- C3: every generated ReturnItem has
`restocking_fee = round(subtotal * f, 2)` for some `f` drawn from
`[0, 0, 0.10, 0.15]`, `refund_amount = round(subtotal - restocking_fee, 2)`,
and `refund_amount + restocking_fee` equals the source OrderItem's
`subtotal` exactly. -/
theorem c3_return_item_money (users : List User) (products : List Product)
    (addresses : List Address) (ocs : List OrderChoice) (ss : List Nat)
    (rcs : Nat → RetChoice) :
    ∀ ri ∈ (gen_returns (gen_orders users products addresses ocs).1
        (gen_orders users products addresses ocs).2.1 ss rcs).2,
      ∃ oi ∈ (gen_orders users products addresses ocs).2.1,
        oi.order_item_id = ri.order_item_id ∧
        (∃ f ∈ RESTOCK_FS, ri.restocking_fee = round2 (oi.subtotal * f)) ∧
        ri.refund_amount = round2 (oi.subtotal - ri.restocking_fee) ∧
        ri.refund_amount + ri.restocking_fee = oi.subtotal := by
  intro ri h
  obtain ⟨oi, hmem, hid, hf, hrefund⟩ :=
    gen_returns_aux_items (gen_orders users products addresses ocs).2.1 rcs _ 1 1 ri h
  have hic : IsCents oi.subtotal :=
    gen_orders_aux_isCents users products (user_addr addresses) ocs 1 1 1 oi hmem
  obtain ⟨f, hfmem, hrest⟩ := hf
  have hicr : IsCents ri.restocking_fee := by
    rw [hrest]; exact isCents_round2 _
  have heq : ri.refund_amount = oi.subtotal - ri.restocking_fee := by
    rw [hrefund]; exact round2_eq_self (hic.sub hicr)
  exact ⟨oi, hmem, hid, ⟨f, hfmem, hrest⟩, hrefund, by rw [heq]; ring⟩

/-- C5: every generated Return references an order with status exactly
`"delivered"`; the sampler draws from the delivered population,
takes `min(int(0.08 * len(delivered)), len(delivered))` orders, and
samples without replacement (the sample is a sub-permutation of the
delivered population). -/
theorem c5_returns_reference_delivered (orders : List Order) (items : List OrderItem)
    (ss : List Nat) (rcs : Nat → RetChoice) :
    (∀ r ∈ (gen_returns orders items ss rcs).1,
      ∃ o ∈ orders, o.status = "delivered" ∧ r.order_id = o.order_id ∧
        r.user_id = o.user_id) ∧
    (sampleWR (deliveredOf orders) (returnSampleSize orders) ss).length =
      returnSampleSize orders ∧
    (sampleWR (deliveredOf orders) (returnSampleSize orders) ss).Subperm
      (deliveredOf orders) := by
  refine ⟨?_, ?_, sampleWR_subperm _ _ _⟩
  · intro r h
    obtain ⟨o, ho, hprop⟩ := gen_returns_aux_orders items rcs _ 1 1 r h
    have ho2 : o ∈ deliveredOf orders := sampleWR_subset _ _ _ o ho
    have ho3 := List.mem_filter.mp ho2
    exact ⟨o, ho3.1, by simpa using ho3.2, hprop⟩
  · rw [sampleWR_length]
    unfold returnSampleSize
    omega

/-- Concrete 13-order fixture: 13 delivered orders make
`sample_size = int(13 * 0.08) = 1`, so one return is generated. -/
def ocsB : List OrderChoice := List.replicate 13 ocA

def rcsB : Nat → RetChoice := fun _ => ⟨0, 0, 0, 0, [0], fun _ => ⟨2, 0⟩⟩

def defaultReturnItem : ReturnItem := ⟨0, 0, 0, 0, 0, 0, 0, ""⟩

def wOrdersB : List Order := (gen_orders [uA] [pA] [] ocsB).1

def wItemsB : List OrderItem := (gen_orders [uA] [pA] [] ocsB).2.1

def wRiB : ReturnItem := (gen_returns wOrdersB wItemsB [0] rcsB).2.headD defaultReturnItem

/-- Witness for C3 at the concrete 13-order run. -/
theorem c3_return_item_money_witness :
    ∃ oi ∈ (gen_orders [uA] [pA] [] ocsB).2.1,
      oi.order_item_id = wRiB.order_item_id ∧
      (∃ f ∈ RESTOCK_FS, wRiB.restocking_fee = round2 (oi.subtotal * f)) ∧
      wRiB.refund_amount = round2 (oi.subtotal - wRiB.restocking_fee) ∧
      wRiB.refund_amount + wRiB.restocking_fee = oi.subtotal :=
  c3_return_item_money [uA] [pA] [] ocsB [0] rcsB wRiB (mem_headD _ _ (by decide))

/-- Witness for C5: the theorem instantiated at the concrete 13-order run. -/
theorem c5_returns_reference_delivered_witness :
    (∀ r ∈ (gen_returns wOrdersB wItemsB [0] rcsB).1,
      ∃ o ∈ wOrdersB, o.status = "delivered" ∧ r.order_id = o.order_id ∧
        r.user_id = o.user_id) ∧
    (sampleWR (deliveredOf wOrdersB) (returnSampleSize wOrdersB) [0]).length =
      returnSampleSize wOrdersB ∧
    (sampleWR (deliveredOf wOrdersB) (returnSampleSize wOrdersB) [0]).Subperm
      (deliveredOf wOrdersB) :=
  c5_returns_reference_delivered wOrdersB wItemsB [0] rcsB

/-! ### `gen_product_catalog` -/

/-- A MongoDB attribute value: string, boolean, or a nested document
(the `dimensions` dict of home decor). -/
inductive AttrVal where
  | s (v : String)
  | b (v : Bool)
  | nested (v : List (String × String))
deriving Repr

/-- Random draws made for one catalog document. -/
structure CatChoice where
  a1 : Nat
  a2 : Nat
  a3 : Nat
  a4 : Nat
  nVarSeed : Nat
  varColorSeed : Nat → Nat
  nSizesSeed : Nat
  sizeSeeds : List Nat
  nColorsSeed : Nat → Nat
  colorSeeds : Nat → List Nat
  nTagsSeed : Nat
  tagWords : Nat → String

def ELECTRONICS_ATTRS (ch : CatChoice) : List (String × AttrVal) :=
  [("battery_life", .s (toString (4 + ch.a1 % 47) ++ " hours")),
   ("connectivity", .s (pick ["Bluetooth 5.0", "Bluetooth 5.2", "Wired", "USB-C", "Wi-Fi"]
     "Wired" ch.a2)),
   ("weight", .s (toString (50 + ch.a3 % 751) ++ "g")),
   ("noise_cancellation", .b (ch.a4 % 2 == 0))]

def FASHION_ATTRS (ch : CatChoice) : List (String × AttrVal) :=
  [("material", .s (pick ["cotton", "cotton blend", "polyester", "silk", "linen", "denim",
     "wool"] "cotton" ch.a1)),
   ("care_instructions", .s (pick ["Machine wash cold", "Hand wash only", "Dry clean only"]
     "Machine wash cold" ch.a2)),
   ("style", .s (pick ["casual", "formal", "summer dress", "sportswear", "streetwear"]
     "casual" ch.a3)),
   ("pattern", .s (pick ["solid", "striped", "floral", "checkered", "abstract"]
     "solid" ch.a4))]

def HOME_DECOR_ATTRS (ch : CatChoice) : List (String × AttrVal) :=
  [("dimensions", .nested [("height", toString (10 + ch.a1 % 51) ++ "cm"),
     ("width", toString (5 + ch.a1 % 36) ++ "cm")]),
   ("material", .s (pick ["ceramic", "glass", "wood", "metal", "fabric"] "ceramic" ch.a2)),
   ("weight", .s (toString ((2 + ch.a3 % 49) / 10) ++ "." ++
     toString ((2 + ch.a3 % 49) % 10) ++ "kg")),
   ("care_instructions", .s (pick ["Hand wash only", "Wipe with damp cloth",
     "Do not submerge"] "Hand wash only" ch.a4))]

def GENERIC_ATTRS (ch : CatChoice) : List (String × AttrVal) :=
  [("weight", .s (toString (100 + ch.a1 % 1901) ++ "g")),
   ("material", .s (pick ["plastic", "metal", "wood", "composite"] "plastic" ch.a2))]

/-- Variants for electronics/home decor: 1–3 color+SKU records. -/
def colorSkuVariants (skuTag : String) (pid : Nat) (ch : CatChoice) :
    List (List (String × String)) :=
  (List.range (1 + ch.nVarSeed % 3)).map (fun j =>
    [("color", pick COLORS "black" (ch.varColorSeed j)),
     ("sku", skuTag ++ "-" ++ toString pid ++ "-" ++ toString j)])

/-- Variants for the generic fallback: 1–2 SKU-only records. -/
def genericVariants (pid : Nat) (ch : CatChoice) : List (List (String × String)) :=
  (List.range (1 + ch.nVarSeed % 2)).map (fun j =>
    [("sku", "GN-" ++ toString pid ++ "-" ++ toString j)])

/-- Fashion variants: for each of 2–5 sampled sizes, 1–3 sampled colors,
one record per (size, color) pair. -/
def fashionVariants (pid : Nat) (ch : CatChoice) : List (List (String × String)) :=
  (((sampleWR SIZES (2 + ch.nSizesSeed % 4) ch.sizeSeeds).enum).map
    (fun si => (sampleWR COLORS (1 + ch.nColorsSeed si.1 % 3) (ch.colorSeeds si.1)).map
      (fun color =>
        [("size", si.2), ("color", color),
         ("sku", "FA-" ++ toString pid ++ "-" ++ si.2 ++ "-" ++ color.take 3)]))).flatten

structure CatalogDoc where
  product_id : Nat
  category : String
  attributes : List (String × AttrVal)
  variants : List (List (String × String))
  tags : List String
deriving Repr

/-- The `cat_map` dict lookup: category id to category name; a missing
id is Python's `KeyError`, modelled as `none`. -/
def catNameOf (cid : Nat) : Option String :=
  (CATEGORIES.find? (fun c => c.category_id == cid)).map (fun c => c.category_name)

/-- One iteration of the `gen_product_catalog` loop. -/
def genCatalogDoc (p : Product) (ch : CatChoice) : Option CatalogDoc :=
  match catNameOf p.category_id with
  | none => none
  | some cat_name =>
      some { product_id := p.product_id, category := cat_name,
             attributes :=
               if cat_name == "electronics" then ELECTRONICS_ATTRS ch
               else if cat_name == "fashion" then FASHION_ATTRS ch
               else if cat_name == "home_decor" then HOME_DECOR_ATTRS ch
               else GENERIC_ATTRS ch,
             variants :=
               if cat_name == "electronics" then colorSkuVariants "EL" p.product_id ch
               else if cat_name == "fashion" then fashionVariants p.product_id ch
               else if cat_name == "home_decor" then colorSkuVariants "HD" p.product_id ch
               else genericVariants p.product_id ch,
             tags := (List.range (1 + ch.nTagsSeed % 4)).map ch.tagWords }

def gen_product_catalog_aux : List Product → (Nat → CatChoice) → Nat →
    Option (List CatalogDoc)
  | [], _, _ => some []
  | p :: ps, chs, i =>
      match genCatalogDoc p (chs i) with
      | none => none
      | some d =>
          match gen_product_catalog_aux ps chs (i + 1) with
          | none => none
          | some ds => some (d :: ds)

/-- `gen_product_catalog(products)`: one document per product, in
order; a product with an unknown category id aborts the loop
(`KeyError`). -/
def gen_product_catalog (products : List Product) (chs : Nat → CatChoice) :
    Option (List CatalogDoc) :=
  gen_product_catalog_aux products chs 0

/-- The fixed attribute-key schema selected by category name. -/
def attrSchemaFor (cat_name : String) : List String :=
  if cat_name == "electronics" then
    ["battery_life", "connectivity", "weight", "noise_cancellation"]
  else if cat_name == "fashion" then ["material", "care_instructions", "style", "pattern"]
  else if cat_name == "home_decor" then
    ["dimensions", "material", "weight", "care_instructions"]
  else ["weight", "material"]

theorem genCatalogDoc_spec {p : Product} {ch : CatChoice} {d : CatalogDoc}
    (h : genCatalogDoc p ch = some d) :
    d.product_id = p.product_id ∧ catNameOf p.category_id = some d.category ∧
    d.attributes.map Prod.fst = attrSchemaFor d.category := by
  unfold genCatalogDoc at h
  cases hc : catNameOf p.category_id with
  | none => rw [hc] at h; exact absurd h (by simp)
  | some name =>
      rw [hc] at h
      simp only [Option.some.injEq] at h
      subst h
      refine ⟨rfl, rfl, ?_⟩
      show (if name == "electronics" then ELECTRONICS_ATTRS ch
        else if name == "fashion" then FASHION_ATTRS ch
        else if name == "home_decor" then HOME_DECOR_ATTRS ch
        else GENERIC_ATTRS ch).map Prod.fst = attrSchemaFor name
      unfold attrSchemaFor
      by_cases h1 : name == "electronics"
      · simp [h1, ELECTRONICS_ATTRS]
      · by_cases h2 : name == "fashion"
        · simp [h1, h2, FASHION_ATTRS]
        · by_cases h3 : name == "home_decor"
          · simp [h1, h2, h3, HOME_DECOR_ATTRS]
          · simp [h1, h2, h3, GENERIC_ATTRS]

theorem gen_product_catalog_aux_spec (chs : Nat → CatChoice) :
    ∀ (products : List Product) (i : Nat) (docs : List CatalogDoc),
      gen_product_catalog_aux products chs i = some docs →
      ∀ doc ∈ docs, ∃ p ∈ products, doc.product_id = p.product_id ∧
        catNameOf p.category_id = some doc.category ∧
        doc.attributes.map Prod.fst = attrSchemaFor doc.category := by
  intro products
  induction products with
  | nil =>
      intro i docs h doc hd
      simp only [gen_product_catalog_aux, Option.some.injEq] at h
      subst h; simp at hd
  | cons p ps ih =>
      intro i docs h doc hd
      unfold gen_product_catalog_aux at h
      cases hg : genCatalogDoc p (chs i) with
      | none => rw [hg] at h; exact absurd h (by simp)
      | some d =>
          rw [hg] at h
          cases hr : gen_product_catalog_aux ps chs (i + 1) with
          | none => rw [hr] at h; exact absurd h (by simp)
          | some ds =>
              rw [hr] at h
              simp only [Option.some.injEq] at h
              subst h
              rcases List.mem_cons.mp hd with hdoc | hdoc
              · subst hdoc
                obtain ⟨h1, h2, h3⟩ := genCatalogDoc_spec hg
                exact ⟨p, List.mem_cons_self _ _, h1, h2, h3⟩
              · obtain ⟨p', hp', hprop⟩ := ih (i + 1) ds hr doc hdoc
                exact ⟨p', List.mem_cons_of_mem _ hp', hprop⟩

/-- C6: every CatalogDocument's `category` equals the category name
resolved from the source Product's `category_id`, and its attribute
keys are exactly the fixed schema for that category name (electronics,
fashion, home_decor, or the generic fallback). -/
theorem c6_catalog_category_schema (products : List Product) (chs : Nat → CatChoice) :
    ∀ doc ∈ (gen_product_catalog products chs).getD [],
      ∃ p ∈ products, doc.product_id = p.product_id ∧
        catNameOf p.category_id = some doc.category ∧
        doc.attributes.map Prod.fst = attrSchemaFor doc.category := by
  intro doc hd
  cases hg : gen_product_catalog products chs with
  | none => rw [hg] at hd; simp at hd
  | some docs =>
      rw [hg] at hd
      exact gen_product_catalog_aux_spec chs products 0 docs hg doc (by simpa using hd)

def chsC : Nat → CatChoice :=
  fun _ => ⟨0, 0, 0, 0, 0, fun _ => 0, 0, [0, 1], fun _ => 0, fun _ => [0], 0,
    fun _ => "gadget"⟩

def defaultDoc : CatalogDoc := ⟨0, "", [], [], []⟩

def wDocC : CatalogDoc := ((gen_product_catalog [pA] chsC).getD []).headD defaultDoc

/-- Witness for C6 at a concrete one-product (electronics) run. -/
theorem c6_catalog_category_schema_witness :
    ∃ p ∈ [pA], wDocC.product_id = p.product_id ∧
      catNameOf p.category_id = some wDocC.category ∧
      wDocC.attributes.map Prod.fst = attrSchemaFor wDocC.category :=
  c6_catalog_category_schema [pA] chsC wDocC (mem_headD _ _ (by decide))

/-! ### `gen_neo4j_import` -/

/-- `name.replace('"', '\\"')`: each quote character becomes
backslash-quote. -/
def escapeQuotes (s : String) : String :=
  ⟨s.data.flatMap (fun c => if c = '"' then ['\\', '"'] else [c])⟩

def categoryLine (c : Category) : String :=
  "MERGE (:Category \x7bname: \"" ++ c.category_name ++ "\"\x7d);"

/-- The user node statement: the first name is embedded verbatim. -/
def userLine (u : User) : String :=
  "MERGE (:User \x7buser_id: " ++ toString u.user_id ++ ", name: \"" ++
    u.first_name ++ "\"\x7d);"

/-- The product node statement: the product name is quote-escaped
(`name_escaped`).  Numeric rendering of the price is abstracted by
`toString`. -/
def productLine (p : Product) : String :=
  "MERGE (:Product \x7bproduct_id: " ++ toString p.product_id ++ ", name: \"" ++
    escapeQuotes p.product_name ++ "\", price: " ++ toString p.base_price ++ "\x7d);"

def belongsLine (pid : Nat) (catName : String) : String :=
  "MATCH (p:Product \x7bproduct_id: " ++ toString pid ++ "\x7d), (c:Category \x7bname: \"" ++
    catName ++ "\"\x7d) MERGE (p)-[:BELONGS_TO]->(c);"

def edgeLine (uid pid cnt : Nat) : String :=
  "MATCH (u:User \x7buser_id: " ++ toString uid ++ "\x7d), (p:Product \x7bproduct_id: " ++
    toString pid ++ "\x7d) MERGE (u)-[:PURCHASED \x7bcount: " ++ toString cnt ++ "\x7d]->(p);"

/-- The `order_user` dict: order id to user id (last write wins). -/
def orderUserOf (orders : List Order) (oid : Nat) : Option Nat :=
  (orders.reverse.find? (fun o => o.order_id == oid)).map (fun o => o.user_id)

/-- The guard of the purchase-pair accumulation loop: the item counts
iff its order resolves to a user with `uid <= 200` and the item's
`product_id <= 1000`; the key is then `(uid, product_id)`. -/
def qualifyOrderItem (orders : List Order) (oi : OrderItem) : Option (Nat × Nat) :=
  match orderUserOf orders oi.order_id with
  | none => none
  | some uid =>
      if uid ≤ 200 && oi.product_id ≤ 1000 then some (uid, oi.product_id) else none

/-- `purchase_pairs[(uid, pid)] = purchase_pairs.get((uid, pid), 0) + 1`
on an insertion-ordered association list: an existing key is updated in
place, a new key is appended. -/
def bump (m : List ((Nat × Nat) × Nat)) (k : Nat × Nat) : List ((Nat × Nat) × Nat) :=
  match m with
  | [] => [(k, 1)]
  | (k', c) :: rest => if k' == k then (k', c + 1) :: rest else (k', c) :: bump rest k

def purchasePairsAux (orders : List Order) :
    List OrderItem → List ((Nat × Nat) × Nat) → List ((Nat × Nat) × Nat)
  | [], m => m
  | oi :: rest, m =>
      match qualifyOrderItem orders oi with
      | some k => purchasePairsAux orders rest (bump m k)
      | none => purchasePairsAux orders rest m

/-- The `purchase_pairs` dict as an insertion-ordered association list. -/
def purchase_pairs (orders : List Order) (items : List OrderItem) :
    List ((Nat × Nat) × Nat) :=
  purchasePairsAux orders items []

/-- `list(purchase_pairs.items())[:5000]`: the emitted edge pairs. -/
def purchaseEdges (orders : List Order) (items : List OrderItem) :
    List ((Nat × Nat) × Nat) :=
  (purchase_pairs orders items).take 5000

/-- The BELONGS_TO section; `cat_map[...]` raises `KeyError` (`none`) on
an unknown category id. -/
def belongsSection : List Product → Option (List String)
  | [] => some []
  | p :: ps =>
      match catNameOf p.category_id with
      | none => none
      | some n =>
          match belongsSection ps with
          | none => none
          | some ls => some (belongsLine p.product_id n :: ls)

/-- `gen_neo4j_import(users, products, orders, order_items_all)` as the
list of emitted lines (the Python function returns their newline join). -/
def gen_neo4j_import (users : List User) (products : List Product) (orders : List Order)
    (items : List OrderItem) : Option (List String) :=
  match belongsSection (products.take 1000) with
  | none => none
  | some bl =>
      some (["// Auto-generated Neo4j import\n"] ++ CATEGORIES.map categoryLine ++ [""] ++
        (users.take 200).map userLine ++ [""] ++
        (products.take 1000).map productLine ++ [""] ++
        bl ++ [""] ++
        (purchaseEdges orders items).map (fun e => edgeLine e.1.1 e.1.2 e.2))

/-- Modelled from the spec: "Text values embedded in statements must
have embedded quote characters escaped" — the user node statement as it
would read with its embedded name quote-escaped. -/
def userLineEscaped (u : User) : String :=
  "MERGE (:User \x7buser_id: " ++ toString u.user_id ++ ", name: \"" ++
    escapeQuotes u.first_name ++ "\"\x7d);"

def uC9 : User := ⟨3, "ab", "ab@example.com", "A\"B", "Cole"⟩

/-- C9 counterexample: a user whose first name contains a quote is
embedded verbatim in the emitted script, not quote-escaped, so the
claim fails on user names. -/
theorem c9_counterexample_user_name_unescaped :
    userLine uC9 ≠ userLineEscaped uC9 ∧
    userLine uC9 ∈ (gen_neo4j_import [uC9] [] [] []).getD [] := by
  constructor <;> decide

/-- C9 (amended): product names are embedded through `escapeQuotes`;
user first names are embedded verbatim (unescaped); the fixed category
names are embedded verbatim but contain no quote character. -/
theorem c9_amended_escaping (p : Product) (u : User) :
    (∃ t1 t2 : String, productLine p = t1 ++ escapeQuotes p.product_name ++ t2) ∧
    (∃ s1 s2 : String, userLine u = s1 ++ u.first_name ++ s2) ∧
    (∀ c ∈ CATEGORIES, c.category_name.data.contains '"' = false) := by
  refine ⟨⟨"MERGE (:Product \x7bproduct_id: " ++ toString p.product_id ++ ", name: \"",
      "\", price: " ++ toString p.base_price ++ "\x7d);", ?_⟩,
    ⟨"MERGE (:User \x7buser_id: " ++ toString u.user_id ++ ", name: \"",
      "\"\x7d);", ?_⟩, ?_⟩
  · unfold productLine
    simp [String.append_assoc]
  · unfold userLine
    simp [String.append_assoc]
  · decide

/-- Witness for the amended C9 at concrete records. -/
theorem c9_amended_escaping_witness :
    (∃ t1 t2 : String, productLine pA = t1 ++ escapeQuotes pA.product_name ++ t2) ∧
    (∃ s1 s2 : String, userLine uA = s1 ++ uA.first_name ++ s2) ∧
    (∀ c ∈ CATEGORIES, c.category_name.data.contains '"' = false) :=
  c9_amended_escaping pA uA

/-- Dict lookup with default 0 (`purchase_pairs.get(k, 0)`). -/
def alookup (m : List ((Nat × Nat) × Nat)) (k : Nat × Nat) : Nat :=
  match m.find? (fun e => e.1 == k) with
  | some e => e.2
  | none => 0

def keysOf (m : List ((Nat × Nat) × Nat)) : List (Nat × Nat) := m.map Prod.fst

/-- The number of OrderItems linking the pair `k = (uid, pid)` inside
the bounded export subset. -/
def linkCount (orders : List Order) (items : List OrderItem) (k : Nat × Nat) : Nat :=
  (items.filter (fun oi => qualifyOrderItem orders oi == some k)).length

theorem alookup_cons_ne {ek : Nat × Nat} {ec : Nat} {rest : List ((Nat × Nat) × Nat)}
    {k : Nat × Nat} (h : (ek == k) = false) :
    alookup ((ek, ec) :: rest) k = alookup rest k := by
  unfold alookup
  rw [List.find?_cons_of_neg _ (by simp [h])]

theorem alookup_cons_self {ek : Nat × Nat} {ec : Nat} {rest : List ((Nat × Nat) × Nat)} :
    alookup ((ek, ec) :: rest) ek = ec := by
  unfold alookup
  rw [List.find?_cons_of_pos _ (by simp)]

theorem bump_cons_ne {ek : Nat × Nat} {ec : Nat} {rest : List ((Nat × Nat) × Nat)}
    {k : Nat × Nat} (h : (ek == k) = false) :
    bump ((ek, ec) :: rest) k = (ek, ec) :: bump rest k := by
  simp [bump, h]

theorem alookup_bump (m : List ((Nat × Nat) × Nat)) (k k' : Nat × Nat) :
    alookup (bump m k) k' = alookup m k' + (if k' = k then 1 else 0) := by
  induction m with
  | nil =>
      by_cases h : k' = k
      · subst h; simp [bump, alookup]
      · have hb : (k == k') = false := beq_false_of_ne (Ne.symm h)
        simp only [bump]
        rw [alookup_cons_ne hb, if_neg h]
        simp [alookup]
  | cons e rest ih =>
      obtain ⟨ek, ec⟩ := e
      by_cases hk : ek = k
      · subst hk
        have hbump : bump ((ek, ec) :: rest) ek = (ek, ec + 1) :: rest := by
          simp [bump]
        rw [hbump]
        by_cases h' : k' = ek
        · subst h'
          rw [alookup_cons_self, alookup_cons_self, if_pos rfl]
        · have hb : (ek == k') = false := beq_false_of_ne (Ne.symm h')
          rw [alookup_cons_ne hb, alookup_cons_ne hb, if_neg h']
          omega
      · have hbeq : (ek == k) = false := beq_false_of_ne hk
        rw [bump_cons_ne hbeq]
        by_cases h' : k' = ek
        · subst h'
          rw [alookup_cons_self, alookup_cons_self, if_neg hk]
          omega
        · have hb : (ek == k') = false := beq_false_of_ne (Ne.symm h')
          rw [alookup_cons_ne hb, alookup_cons_ne hb, ih]

theorem keysOf_bump (m : List ((Nat × Nat) × Nat)) (k : Nat × Nat) :
    keysOf (bump m k) = if k ∈ keysOf m then keysOf m else keysOf m ++ [k] := by
  induction m with
  | nil => simp [bump, keysOf]
  | cons e rest ih =>
      obtain ⟨ek, ec⟩ := e
      by_cases hk : ek = k
      · subst hk
        have hbump : bump ((ek, ec) :: rest) ek = (ek, ec + 1) :: rest := by
          simp [bump]
        rw [hbump, if_pos (by simp [keysOf])]
        rfl
      · have hbeq : (ek == k) = false := beq_false_of_ne hk
        have hne : k ≠ ek := Ne.symm hk
        rw [bump_cons_ne hbeq]
        have h1 : keysOf ((ek, ec) :: bump rest k) = ek :: keysOf (bump rest k) := rfl
        have h2 : keysOf ((ek, ec) :: rest) = ek :: keysOf rest := rfl
        rw [h1, h2, ih]
        by_cases hmem : k ∈ keysOf rest
        · rw [if_pos hmem, if_pos (List.mem_cons_of_mem _ hmem)]
        · rw [if_neg hmem, if_neg (by simp [hne, hmem])]
          rfl

theorem nodup_keysOf_bump {m : List ((Nat × Nat) × Nat)} (k : Nat × Nat)
    (h : (keysOf m).Nodup) : (keysOf (bump m k)).Nodup := by
  rw [keysOf_bump]
  by_cases hmem : k ∈ keysOf m
  · rw [if_pos hmem]; exact h
  · rw [if_neg hmem]
    rw [List.nodup_append]
    refine ⟨h, List.nodup_singleton _, ?_⟩
    intro a ha hb
    rw [List.mem_singleton] at hb
    subst hb
    exact hmem ha

theorem mem_keysOf_bump (m : List ((Nat × Nat) × Nat)) (k k' : Nat × Nat) :
    k' ∈ keysOf (bump m k) ↔ k' ∈ keysOf m ∨ k' = k := by
  rw [keysOf_bump]
  by_cases hmem : k ∈ keysOf m
  · rw [if_pos hmem]
    constructor
    · exact Or.inl
    · rintro (h | rfl)
      · exact h
      · exact hmem
  · rw [if_neg hmem]
    simp

theorem alookup_purchasePairsAux (orders : List Order) :
    ∀ (its : List OrderItem) (m : List ((Nat × Nat) × Nat)) (k : Nat × Nat),
      alookup (purchasePairsAux orders its m) k = alookup m k + linkCount orders its k := by
  intro its
  induction its with
  | nil => intro m k; simp [purchasePairsAux, linkCount]
  | cons oi rest ih =>
      intro m k
      unfold linkCount
      cases hq : qualifyOrderItem orders oi with
      | none =>
          rw [purchasePairsAux, hq]
          have hfil : (oi :: rest).filter (fun oi => qualifyOrderItem orders oi == some k) =
              rest.filter (fun oi => qualifyOrderItem orders oi == some k) := by
            rw [List.filter_cons_of_neg]
            simp [hq]
          rw [hfil, ih]
          rfl
      | some k0 =>
          rw [purchasePairsAux, hq, ih, alookup_bump]
          by_cases hk : k = k0
          · subst hk
            rw [List.filter_cons_of_pos (by simp [hq]), if_pos rfl]
            simp [linkCount]
            omega
          · rw [List.filter_cons_of_neg (by simp [hq, Ne.symm hk]), if_neg hk]
            simp [linkCount]

theorem nodup_keysOf_purchasePairsAux (orders : List Order) :
    ∀ (its : List OrderItem) (m : List ((Nat × Nat) × Nat)),
      (keysOf m).Nodup → (keysOf (purchasePairsAux orders its m)).Nodup := by
  intro its
  induction its with
  | nil => intro m h; exact h
  | cons oi rest ih =>
      intro m h
      cases hq : qualifyOrderItem orders oi with
      | none => rw [purchasePairsAux, hq]; exact ih m h
      | some k0 => rw [purchasePairsAux, hq]; exact ih _ (nodup_keysOf_bump k0 h)

theorem mem_keysOf_purchasePairsAux (orders : List Order) :
    ∀ (its : List OrderItem) (m : List ((Nat × Nat) × Nat)) (k : Nat × Nat),
      k ∈ keysOf (purchasePairsAux orders its m) ↔
        k ∈ keysOf m ∨ 0 < linkCount orders its k := by
  intro its
  induction its with
  | nil => intro m k; simp [purchasePairsAux, linkCount]
  | cons oi rest ih =>
      intro m k
      unfold linkCount
      cases hq : qualifyOrderItem orders oi with
      | none =>
          rw [purchasePairsAux, hq, ih]
          have hfil : (oi :: rest).filter (fun oi => qualifyOrderItem orders oi == some k) =
              rest.filter (fun oi => qualifyOrderItem orders oi == some k) := by
            rw [List.filter_cons_of_neg]; simp [hq]
          rw [hfil]
          rfl
      | some k0 =>
          rw [purchasePairsAux, hq, ih, mem_keysOf_bump]
          by_cases hk : k = k0
          · subst hk
            rw [List.filter_cons_of_pos (by simp [hq])]
            simp
          · rw [List.filter_cons_of_neg (by simp [hq, Ne.symm hk])]
            simp [hk, linkCount]

theorem alookup_mem (m : List ((Nat × Nat) × Nat)) (k : Nat × Nat)
    (h : k ∈ keysOf m) : (k, alookup m k) ∈ m := by
  induction m with
  | nil => simp [keysOf] at h
  | cons e rest ih =>
      obtain ⟨ek, ec⟩ := e
      by_cases hk : ek = k
      · subst hk
        simp [alookup]
      · have hbeq : (ek == k) = false := beq_false_of_ne hk
        have hmem : k ∈ keysOf rest := by
          simp only [keysOf, List.map_cons, List.mem_cons] at h
          rcases h with h | h
          · exact absurd h.symm hk
          · exact h
        have := ih hmem
        simp only [alookup, List.find?_cons, hbeq]
        exact List.mem_cons_of_mem _ (by simpa [alookup] using this)

theorem countP_keys_eq_one (m : List ((Nat × Nat) × Nat)) (k : Nat × Nat)
    (hnd : (keysOf m).Nodup) (hmem : k ∈ keysOf m) :
    m.countP (fun e => e.1 == k) = 1 := by
  induction m with
  | nil => simp [keysOf] at hmem
  | cons e rest ih =>
      obtain ⟨ek, ec⟩ := e
      have hnd' : (keysOf rest).Nodup := (List.nodup_cons.mp hnd).2
      by_cases hk : ek = k
      · subst hk
        have hnot : ek ∉ keysOf rest := (List.nodup_cons.mp hnd).1
        have hz : rest.countP (fun e => e.1 == ek) = 0 := by
          rw [List.countP_eq_zero]
          intro e he
          have : e.1 ∈ keysOf rest := List.mem_map_of_mem _ he
          simp only [beq_iff_eq]
          intro habs
          rw [habs] at this
          exact hnot this
        rw [List.countP_cons_of_pos _ _ (by simp), hz]
      · have hmem' : k ∈ keysOf rest := by
          simp only [keysOf, List.map_cons, List.mem_cons] at hmem
          rcases hmem with h | h
          · exact absurd h.symm hk
          · exact h
        rw [List.countP_cons_of_neg _ _ (by simp [hk])]
        exact ih hnd' hmem'

theorem bump_fresh {m : List ((Nat × Nat) × Nat)} {k : Nat × Nat}
    (h : k ∉ keysOf m) : bump m k = m ++ [(k, 1)] := by
  induction m with
  | nil => rfl
  | cons e rest ih =>
      obtain ⟨ek, ec⟩ := e
      have hk : ek ≠ k := by
        intro habs
        exact h (by simp [keysOf, habs])
      rw [bump_cons_ne (beq_false_of_ne hk)]
      have h2 : k ∉ keysOf rest := fun habs => h (List.mem_cons_of_mem _ habs)
      rw [ih h2]
      rfl

theorem purchasePairsAux_cons_some {orders : List Order} {oi : OrderItem} {k : Nat × Nat}
    {rest : List OrderItem} {m : List ((Nat × Nat) × Nat)}
    (h : qualifyOrderItem orders oi = some k) :
    purchasePairsAux orders (oi :: rest) m = purchasePairsAux orders rest (bump m k) := by
  show (match qualifyOrderItem orders oi with
    | some k => purchasePairsAux orders rest (bump m k)
    | none => purchasePairsAux orders rest m) = purchasePairsAux orders rest (bump m k)
  rw [h]

/-- When every item qualifies and all keys are pairwise distinct and
fresh, the dict fold appends one singleton entry per item, in order. -/
theorem purchasePairsAux_fresh (orders : List Order) (key : OrderItem → Nat × Nat) :
    ∀ (its : List OrderItem) (m : List ((Nat × Nat) × Nat)),
      (∀ oi ∈ its, qualifyOrderItem orders oi = some (key oi)) →
      List.Pairwise (fun a b => key a ≠ key b) its →
      (∀ oi ∈ its, key oi ∉ keysOf m) →
      purchasePairsAux orders its m = m ++ its.map (fun oi => (key oi, 1)) := by
  intro its
  induction its with
  | nil => intro m _ _ _; simp [purchasePairsAux]
  | cons oi rest ih =>
      intro m hq hpw hfresh
      rw [purchasePairsAux_cons_some (hq oi (List.mem_cons_self _ _))]
      rw [bump_fresh (hfresh oi (List.mem_cons_self _ _))]
      have hpw' := List.pairwise_cons.mp hpw
      rw [ih (m ++ [(key oi, 1)]) (fun x hx => hq x (List.mem_cons_of_mem _ hx)) hpw'.2 ?_]
      · simp
      · intro x hx hmem
        have hkeys : keysOf (m ++ [(key oi, 1)]) = keysOf m ++ [key oi] := by
          simp [keysOf]
        rw [hkeys, List.mem_append] at hmem
        rcases hmem with hmem | hmem
        · exact hfresh x (List.mem_cons_of_mem _ hx) hmem
        · rw [List.mem_singleton] at hmem
          exact hpw'.1 x hx hmem.symm

/-- C7 (amended): whenever the aggregated pair dict has at most 5000
entries (the `[:5000]` cap does not truncate), every (user, product)
pair appearing in an OrderItem of the bounded subset gets exactly one
edge entry, and the count it carries is the number of OrderItems
linking that user to that product in the subset. -/
theorem c7_amended_purchase_edges (orders : List Order) (items : List OrderItem)
    (hlen : (purchase_pairs orders items).length ≤ 5000) (uid pid : Nat)
    (happ : ∃ oi ∈ items, qualifyOrderItem orders oi = some (uid, pid)) :
    (purchaseEdges orders items).countP (fun e => e.1 == (uid, pid)) = 1 ∧
    ((uid, pid), linkCount orders items (uid, pid)) ∈ purchaseEdges orders items ∧
    edgeLine uid pid (linkCount orders items (uid, pid)) ∈
      (purchaseEdges orders items).map (fun e => edgeLine e.1.1 e.1.2 e.2) := by
  have htake : purchaseEdges orders items = purchase_pairs orders items :=
    List.take_of_length_le hlen
  obtain ⟨oi, hoi, hq⟩ := happ
  have hcnt : 0 < linkCount orders items (uid, pid) := by
    unfold linkCount
    have hmem : oi ∈ items.filter (fun oi => qualifyOrderItem orders oi == some (uid, pid)) :=
      List.mem_filter.mpr ⟨hoi, by simp [hq]⟩
    exact List.length_pos.mpr (List.ne_nil_of_mem hmem)
  have hmemk : (uid, pid) ∈ keysOf (purchase_pairs orders items) := by
    unfold purchase_pairs
    rw [mem_keysOf_purchasePairsAux]
    exact Or.inr hcnt
  have hnd : (keysOf (purchase_pairs orders items)).Nodup :=
    nodup_keysOf_purchasePairsAux orders items [] (by simp [keysOf])
  have hlook : alookup (purchase_pairs orders items) (uid, pid) =
      linkCount orders items (uid, pid) := by
    unfold purchase_pairs
    rw [alookup_purchasePairsAux]
    simp [alookup]
  refine ⟨?_, ?_, ?_⟩
  · rw [htake]
    exact countP_keys_eq_one _ _ hnd hmemk
  · rw [htake]
    have h := alookup_mem _ _ hmemk
    rwa [hlook] at h
  · rw [htake]
    have h := alookup_mem _ _ hmemk
    rw [hlook] at h
    exact List.mem_map.mpr ⟨((uid, pid), linkCount orders items (uid, pid)), h, rfl⟩

def cexO1 : Order := { defaultOrder with order_id := 1, user_id := 7 }

def cexI1 : OrderItem :=
  { defaultOrderItem with order_item_id := 1, order_id := 1, product_id := 5 }

/-- Witness for the amended C7 at a one-order, one-item run. -/
theorem c7_amended_purchase_edges_witness :
    ((purchase_pairs [cexO1] [cexI1]).length ≤ 5000) ∧
    ((purchaseEdges [cexO1] [cexI1]).countP (fun e => e.1 == (7, 5)) = 1 ∧
     ((7, 5), linkCount [cexO1] [cexI1] (7, 5)) ∈ purchaseEdges [cexO1] [cexI1] ∧
     edgeLine 7 5 (linkCount [cexO1] [cexI1] (7, 5)) ∈
       (purchaseEdges [cexO1] [cexI1]).map (fun e => edgeLine e.1.1 e.1.2 e.2)) :=
  ⟨by decide,
   c7_amended_purchase_edges [cexO1] [cexI1] (by decide) 7 5
     ⟨cexI1, List.mem_cons_self _ _, by decide⟩⟩

def cexOrderBig (j : Nat) : Order :=
  { defaultOrder with order_id := j + 1, user_id := j + 1 }

/-- Six orders for users 1–6. -/
def cexOrdersBig : List Order := (List.range 6).map cexOrderBig

def cexItemBig (i : Nat) : OrderItem :=
  { defaultOrderItem with
      order_item_id := i + 1, order_id := i / 1000 + 1, product_id := i % 1000 + 1 }

/-- 5001 order items realizing 5001 distinct (user, product) pairs
inside the bounded export subset. -/
def cexItemsBig : List OrderItem := (List.range 5001).map cexItemBig

theorem cex_orderUser (j : Nat) (hj : j < 6) :
    orderUserOf cexOrdersBig (j + 1) = some (j + 1) := by
  interval_cases j <;> decide

theorem cex_qualify (i : Nat) (hi : i < 5001) :
    qualifyOrderItem cexOrdersBig (cexItemBig i) = some (i / 1000 + 1, i % 1000 + 1) := by
  have h1 : orderUserOf cexOrdersBig (i / 1000 + 1) = some (i / 1000 + 1) :=
    cex_orderUser (i / 1000) (by omega)
  have hOrd : (cexItemBig i).order_id = i / 1000 + 1 := rfl
  have hPid : (cexItemBig i).product_id = i % 1000 + 1 := rfl
  unfold qualifyOrderItem
  rw [hOrd, hPid, h1]
  have hc1 : i / 1000 + 1 ≤ 200 := by omega
  have hc2 : i % 1000 + 1 ≤ 1000 := by omega
  show (if (decide (i / 1000 + 1 ≤ 200) && decide (i % 1000 + 1 ≤ 1000)) = true then
      some (i / 1000 + 1, i % 1000 + 1) else none) = some (i / 1000 + 1, i % 1000 + 1)
  rw [if_pos (by simp [hc1, hc2])]

theorem cex_pairwise :
    List.Pairwise (fun a b : OrderItem =>
      (a.order_id, a.product_id) ≠ (b.order_id, b.product_id)) cexItemsBig := by
  unfold cexItemsBig
  rw [List.pairwise_map]
  refine (List.nodup_range 5001).imp ?_
  intro a b hne habs
  apply hne
  simp only [cexItemBig, Prod.mk.injEq] at habs
  omega

theorem cex_pairs_eq :
    purchase_pairs cexOrdersBig cexItemsBig =
      (List.range 5001).map (fun i => ((i / 1000 + 1, i % 1000 + 1), 1)) := by
  unfold purchase_pairs
  have h := purchasePairsAux_fresh cexOrdersBig (fun oi => (oi.order_id, oi.product_id))
    cexItemsBig [] ?_ cex_pairwise ?_
  · rw [h, List.nil_append]
    unfold cexItemsBig
    rw [List.map_map]
    rfl
  · intro oi hoi
    obtain ⟨i, hi, rfl⟩ := List.mem_map.mp hoi
    exact cex_qualify i (List.mem_range.mp hi)
  · intro oi _ hmem
    simp [keysOf] at hmem

theorem range_succ_take (n : Nat) : (List.range (n + 1)).take n = List.range n := by
  rw [List.range_succ]
  exact List.take_left' (List.length_range n)

theorem cex_edges_eq :
    purchaseEdges cexOrdersBig cexItemsBig =
      (List.range 5000).map (fun i => ((i / 1000 + 1, i % 1000 + 1), 1)) := by
  unfold purchaseEdges
  rw [cex_pairs_eq]
  rw [← List.map_take]
  exact congrArg _ (range_succ_take 5000)

/-- C7 counterexample: with 5001 distinct (user, product) pairs in the
bounded subset, the `[:5000]` cap drops the last pair — here (6, 1)
appears in an OrderItem of the subset yet gets no edge entry at all,
refuting "for every pair ... exactly one purchase-edge statement". -/
theorem c7_counterexample_pair_dropped :
    (∃ oi ∈ cexItemsBig, qualifyOrderItem cexOrdersBig oi = some (6, 1)) ∧
    (6, 1) ∉ keysOf (purchaseEdges cexOrdersBig cexItemsBig) := by
  constructor
  · refine ⟨cexItemBig 5000, ?_, ?_⟩
    · show cexItemBig 5000 ∈ (List.range 5001).map cexItemBig
      exact List.mem_map_of_mem cexItemBig (List.mem_range.mpr (by norm_num))
    · exact cex_qualify 5000 (by norm_num)
  · rw [cex_edges_eq]
    intro hmem
    unfold keysOf at hmem
    rw [List.map_map] at hmem
    obtain ⟨i, hi, habs⟩ := List.mem_map.mp hmem
    have hlt := List.mem_range.mp hi
    have habs2 : (i / 1000 + 1, i % 1000 + 1) = ((6 : Nat), (1 : Nat)) := habs
    rw [Prod.mk.injEq] at habs2
    omega
